import Mathlib

/-!
Shallow embedding of the github-issue-proxy relay (src/src/main.rs).

Modelling conventions:
- Header maps are association lists of (name, value) pairs, names already
  normalized to lowercase (the http crate HeaderMap stores lowercase names,
  and the source matches on the lowercase strings "host" and
  "accept-encoding").  `append` adds at the end, `get` returns the first
  value for a name, as in the http crate.
- JSON values are opaque (the source never inspects them): each value is
  its serialized text.  Serializing an array writes the elements joined by
  commas inside brackets, as serde_json does for a transparent Vec.
- Time is Nat seconds.  Instant.duration_since saturates at zero, which is
  exactly Nat subtraction.
- The external crates reqwest (network), serde_json (array parse),
  parse_link_header (link map parse) and Url (host extraction) enter as
  function parameters: env, parse_json_array, parse_link, parse_url_host.
  For Url, none means the URL failed to parse, some none means it parsed
  but has no host, some (some h) means it parsed with host h.
- The ttl_cache crate TtlCache stores an expiry instant (insert time plus
  the ttl passed to insert) and its get hides entries whose expiry has
  been reached.  The fixed capacity (10000 entries) is not modelled; no
  claim depends on it.
- The unbounded recursion of fetch_from_github is modelled with explicit
  fuel; fuel 0 stands for a run that would still be recursing.
-/

/-- A header map: ordered, repeats allowed, names lowercase. -/
abbrev HeaderMap := List (String × String)

/-- First value stored for a header name (http HeaderMap.get). -/
def headerGet (h : HeaderMap) (name : String) : Option String :=
  (h.find? (fun kv => kv.1 == name)).map (·.2)

/-- Whether any value is stored for a header name (http HeaderMap.contains_key). -/
def headerContains (h : HeaderMap) (name : String) : Bool :=
  h.any (fun kv => kv.1 == name)

/-- An opaque JSON value, identified with its serialized text. -/
structure JsonValue where
  raw : String
deriving DecidableEq, Repr

/-- Serialization of OpaqueJsonArray: a bare JSON array. -/
def serialize_json_array (vs : List JsonValue) : String :=
  "[" ++ String.intercalate "," (vs.map (·.raw)) ++ "]"

/-- The fixed CORS header set built by cors_allow_all (main.rs 226-233). -/
def cors_allow_all : HeaderMap :=
  [("access-control-allow-origin", "*")]

/-- serialize_for_response (main.rs 121-130).  serde_json.to_string of a
Vec of Value values cannot fail, so the model serializer is total and the
success arm is always taken; the status/headers/body triple is kept. -/
def serialize_for_response (response : List JsonValue) : Nat × HeaderMap × String :=
  (200, cors_allow_all, serialize_json_array response)

/-- StatusCode.is_success of the http crate: 2xx. -/
def is_success_status (n : Nat) : Bool :=
  200 ≤ n && n < 300

/-- StatusCode.from_u16 with unwrap_or(INTERNAL_SERVER_ERROR)
(main.rs 170-171): codes 100-999 are valid, anything else becomes 500. -/
def status_from_u16 (n : Nat) : Nat :=
  if 100 ≤ n ∧ n ≤ 999 then n else 500

/-- One upstream HTTP response as the fetch loop observes it: status,
body text, and the raw value of the link response header if present. -/
structure UpstreamResponse where
  status : Nat
  bodyText : String
  linkHeader : Option String
deriving DecidableEq, Repr

/-- Debug formatting of a (StatusCode, String) pair, as produced by the
format with a debug specifier at main.rs 215 (string escaping of quote
and backslash included, other escapes elided). -/
def rust_debug_str (s : String) : String :=
  "\"" ++ String.join (s.data.map (fun c =>
    if c = '\\' then "\\\\" else if c = '"' then "\\\"" else String.singleton c)) ++ "\""

/-- Debug formatting of the error pair surfaced by a failed follow-up. -/
def rust_debug_pair (e : Nat × String) : String :=
  "(" ++ toString e.1 ++ ", " ++ rust_debug_str e.2 ++ ")"

/-- Lookup in the parsed link map by relation key (link_map.get at
main.rs 209); the map is modelled as an association list from optional
relation name to target URI. -/
def lookup_rel (lm : List (Option String × String)) (k : Option String) : Option String :=
  (lm.find? (fun p => p.1 == k)).map (·.2)

/-- The per-hop header translation loop of fetch_from_github
(main.rs 138-161): host is replaced by the host of the target URL of this
hop (dropped when the URL does not parse or has no host), accept-encoding
is dropped, everything else passes through in order with multiplicity.
builder accumulates the outbound headers. -/
def header_translate (url : String)
    (parse_url_host : String → Option (Option String))
    (request_headers : HeaderMap) : HeaderMap :=
  request_headers.foldl (fun builder kv =>
    if kv.1 = "host" then
      match parse_url_host url with
      | some (some host) => builder ++ [(kv.1, host)]
      | some none => builder
      | none => builder
    else if kv.1 = "accept-encoding" then builder
    else builder ++ [kv]) []

/-- fetch_from_github (main.rs 132-224), fuel-indexed.  env is the
upstream network: none is a failed send (reqwest error), some r is the
response.  parse_json_array is serde_json.from_str into the transparent
array; parse_link is parse_link_header.parse into the relation map
(none is a parse failure).  Error payloads are (status, body) pairs;
diagnostic strings of external error values are fixed placeholders. -/
def fetch_from_github (env : String → Option UpstreamResponse)
    (parse_url_host : String → Option (Option String))
    (parse_json_array : String → Option (List JsonValue))
    (parse_link : String → Option (List (Option String × String))) :
    Nat → String → HeaderMap → Except (Nat × String) (List JsonValue)
  | 0, _, _ => Except.error (500, "fetch recursion fuel exhausted")
  | fuel + 1, url, request_headers =>
    let _outbound := header_translate url parse_url_host request_headers
    match env url with
    | none => Except.error (500, "Failed to make request to github: send error")
    | some response =>
      if ¬ is_success_status response.status then
        Except.error (status_from_u16 response.status, response.bodyText)
      else
        match parse_json_array response.bodyText with
        | none => Except.error (500,
            "Failed to read response " ++ rust_debug_str response.bodyText ++ ": json error")
        | some values =>
          match response.linkHeader with
          | none => Except.ok values
          | some link =>
            match parse_link link with
            | none => Except.error (500,
                "Failed to parse link map " ++ rust_debug_str link ++ ": parse error")
            | some link_map =>
              match lookup_rel link_map (some "next") with
              | none => Except.ok values
              | some next_uri =>
                match fetch_from_github env parse_url_host parse_json_array parse_link
                    fuel next_uri request_headers with
                | Except.error e => Except.error (500,
                    "Failed to make follow-up request to github: " ++ rust_debug_pair e)
                | Except.ok rest => Except.ok (values ++ rest)

/-- CacheKey (main.rs 249-253): the raw bytes of the authorization header
after default substitution (absence kept distinct from any value), and the
path after the cache-control segments. -/
structure CacheKey where
  authorization_header : Option String
  path : String
deriving DecidableEq, Repr

/-- CacheValue (main.rs 255-258). -/
structure CacheValue where
  values : List JsonValue
  generated_at : Nat
deriving DecidableEq, Repr

/-- One slot of the ttl_cache TtlCache: the stored value plus the expiry
instant fixed at insert time (insert instant plus the ttl argument). -/
structure TtlSlot where
  value : CacheValue
  expires_at : Nat
deriving DecidableEq, Repr

/-- The TtlCache entry map (capacity not modelled). -/
abbrev Cache := List (CacheKey × TtlSlot)

/-- TtlCache.get: returns the stored value only while its expiry instant
has not been reached (an expired slot behaves as absent). -/
def cacheGet (cache : Cache) (key : CacheKey) (now : Nat) : Option TtlSlot :=
  match (cache.find? (fun kv => kv.1 == key)).map (·.2) with
  | none => none
  | some slot => if now < slot.expires_at then some slot else none

/-- TtlCache.insert: replaces any slot for the key and arms the expiry at
now plus the ttl. -/
def cacheInsert (cache : Cache) (key : CacheKey) (value : CacheValue)
    (ttl : Nat) (now : Nat) : Cache :=
  (cache.filter (fun kv => !(kv.1 == key))) ++ [(key, ⟨value, now + ttl⟩)]

/-- The header set the cached route sends upstream (main.rs 58-62): when
no authorization header is present and a default credential is
configured, the default is appended; otherwise the inbound headers pass
unchanged. -/
def cached_effective_headers (default_auth_header : Option String)
    (headers : HeaderMap) : HeaderMap :=
  if headerContains headers "authorization" then headers
  else
    match default_auth_header with
    | some d => headers ++ [("authorization", d)]
    | none => headers

/-- The header set the uncached route sends upstream (main.rs 104-119):
handler passes its inbound headers to fetch_from_github verbatim; the
configured default credential is not consulted on this route. -/
def handler_effective_headers (_default_auth_header : Option String)
    (headers : HeaderMap) : HeaderMap :=
  headers

/-- The cache key computed by cached_handler (main.rs 63-68): first
authorization value of the substituted headers, plus the path. -/
def cache_key_of (default_auth_header : Option String)
    (headers : HeaderMap) (path : String) : CacheKey :=
  ⟨headerGet (cached_effective_headers default_auth_header headers) "authorization", path⟩

/-- max_duration in seconds (main.rs 69): the u16 minutes value is
multiplied by 60 still as a u16 (wrapping modulo 2 to the 16th in release
builds) before widening to u64 for Duration.from_secs. -/
def max_duration_secs (minutes : Nat) : Nat :=
  (minutes * 60) % 65536

/-- Observable outcome of one cached-route request: the wire response,
the cache map afterwards, and whether the upstream fetch pipeline ran. -/
structure CachedOutcome where
  status : Nat
  respHeaders : HeaderMap
  body : String
  cacheAfter : Cache
  fetched : Bool
deriving DecidableEq, Repr

/-- cached_handler (main.rs 53-102).  The fetch pipeline is abstracted by
its result fetch_result, consumed only on the miss path (fetched records
whether it was).  Lookup, the freshness comparison and the store all
happen at the single instant now. -/
def cached_handler (default_auth_header : Option String) (cache : Cache)
    (now : Nat) (minutes : Nat) (path : String) (headers : HeaderMap)
    (fetch_result : Except (Nat × String) (List JsonValue)) : CachedOutcome :=
  let headers := cached_effective_headers default_auth_header headers
  let key : CacheKey := ⟨headerGet headers "authorization", path⟩
  let max_duration := max_duration_secs minutes
  let miss : CachedOutcome :=
    match fetch_result with
    | Except.ok github_response =>
      let response := serialize_for_response github_response
      let cacheAfter :=
        if is_success_status response.1 then
          cacheInsert cache key ⟨github_response, now⟩ max_duration now
        else cache
      ⟨response.1, response.2.1, response.2.2, cacheAfter, true⟩
    | Except.error e => ⟨e.1, cors_allow_all, e.2, cache, true⟩
  match cacheGet cache key now with
  | some slot =>
    if now - slot.value.generated_at ≤ max_duration then
      let response := serialize_for_response slot.value.values
      ⟨response.1, response.2.1, response.2.2, cache, false⟩
    else miss
  | none => miss

/-- handler (main.rs 104-119), with the fetch pipeline abstracted by its
result as for cached_handler. -/
def handler (fetch_result : Except (Nat × String) (List JsonValue)) :
    Nat × HeaderMap × String :=
  match fetch_result with
  | Except.ok response => serialize_for_response response
  | Except.error e => (e.1, cors_allow_all, e.2)

/-- Checked decimal accumulation for a u16 parse: digits only, with the
running value rejected as soon as it exceeds the u16 range. -/
def parse_u16_decimal : List Char → Nat → Option Nat
  | [], acc => some acc
  | c :: cs, acc =>
    if c.isDigit then
      let acc := acc * 10 + (c.toNat - 48)
      if 65535 < acc then none else parse_u16_decimal cs acc
    else none

/-- Models the axum route extraction for the cached route declared at
main.rs 36 and 55: Path parses the minutes segment as a NonZeroU16 (a
non-empty decimal u16 that is not zero) and rejects the request with
status 400 before the handler body, and hence any upstream call, runs. -/
def parse_nonzero_u16 (s : String) : Option Nat :=
  match s.data with
  | [] => none
  | cs =>
    match parse_u16_decimal cs 0 with
    | none => none
    | some 0 => none
    | some n => some n

/-- The cached route as dispatched by the router: extractor rejection or
cached_handler. -/
def cached_route (default_auth_header : Option String) (cache : Cache)
    (now : Nat) (minutes_str : String) (path : String) (headers : HeaderMap)
    (fetch_result : Except (Nat × String) (List JsonValue)) : CachedOutcome :=
  match parse_nonzero_u16 minutes_str with
  | none => ⟨400, [], "Invalid URL", cache, false⟩
  | some minutes => cached_handler default_auth_header cache now minutes path headers fetch_result

/-- A finite successful pagination chain in the upstream environment
starting at a URL: every page responds with a success status, parses as a
JSON array, and either carries no next relation (last page) or links to
the page the chain continues with. -/
inductive PageChain (env : String → Option UpstreamResponse)
    (parse_json_array : String → Option (List JsonValue))
    (parse_link : String → Option (List (Option String × String))) :
    String → List (List JsonValue) → Prop
  | last (url : String) (r : UpstreamResponse) (a : List JsonValue)
      (henv : env url = some r) (hok : is_success_status r.status = true)
      (hparse : parse_json_array r.bodyText = some a)
      (hnolink : r.linkHeader = none ∨
        ∃ l lm, r.linkHeader = some l ∧ parse_link l = some lm ∧
          lookup_rel lm (some "next") = none) :
      PageChain env parse_json_array parse_link url [a]
  | cons (url : String) (r : UpstreamResponse) (a : List JsonValue)
      (next_uri : String) (rest : List (List JsonValue))
      (henv : env url = some r) (hok : is_success_status r.status = true)
      (hparse : parse_json_array r.bodyText = some a)
      (hlink : ∃ l lm, r.linkHeader = some l ∧ parse_link l = some lm ∧
        lookup_rel lm (some "next") = some next_uri)
      (hrest : PageChain env parse_json_array parse_link next_uri rest) :
      PageChain env parse_json_array parse_link url (a :: rest)

/-! Helper lemmas about header lookup. -/

theorem headerGet_eq_none_of_not_contains (h : HeaderMap) (n : String)
    (hc : headerContains h n = false) : headerGet h n = none := by
  induction h with
  | nil => rfl
  | cons kv t ih =>
    simp only [headerContains, List.any_cons, Bool.or_eq_false_iff] at hc
    simp only [headerGet, List.find?_cons, hc.1]
    exact ih hc.2

theorem headerGet_append_single (h : HeaderMap) (n v : String)
    (hc : headerContains h n = false) :
    headerGet (h ++ [(n, v)]) n = some v := by
  induction h with
  | nil => simp [headerGet, List.find?_cons]
  | cons kv t ih =>
    simp only [headerContains, List.any_cons, Bool.or_eq_false_iff] at hc
    simp only [List.cons_append, headerGet, List.find?_cons, hc.1]
    exact ih hc.2

/-- C10: the freshness window in seconds is the minutes value times 60 in
16-bit unsigned arithmetic before widening: it equals 60 times m exactly
when m is at most 1092, and wraps to (60 times m) modulo 2 to the 16th,
which differs from 60 times m, when m exceeds 1092. -/
theorem max_duration_wraps_u16 (m : Nat) (h1 : 1 ≤ m) (h2 : m ≤ 65535) :
    (m ≤ 1092 → max_duration_secs m = 60 * m) ∧
    (1092 < m → max_duration_secs m = (60 * m) % 65536 ∧ (60 * m) % 65536 ≠ 60 * m) := by
  constructor
  · intro hle
    unfold max_duration_secs
    rw [Nat.mul_comm]
    exact Nat.mod_eq_of_lt (by omega)
  · intro hgt
    refine ⟨by unfold max_duration_secs; rw [Nat.mul_comm], ?_⟩
    have hlt : (60 * m) % 65536 < 65536 := Nat.mod_lt _ (by omega)
    omega

theorem max_duration_wraps_u16_witness :
    (2000 ≤ 1092 → max_duration_secs 2000 = 60 * 2000) ∧
    (1092 < 2000 → max_duration_secs 2000 = (60 * 2000) % 65536 ∧
      (60 * 2000) % 65536 ≠ 60 * 2000) :=
  max_duration_wraps_u16 2000 (by decide) (by decide)

/-- C9: a cached request whose minutes segment is the string 0 is rejected
by the route extractor before the handler runs: the fetch pipeline is
never consulted and the cache is untouched. -/
theorem cached_route_rejects_zero_minutes (d : Option String) (cache : Cache)
    (now : Nat) (path : String) (headers : HeaderMap)
    (fr : Except (Nat × String) (List JsonValue)) :
    (cached_route d cache now "0" path headers fr).status = 400 ∧
    (cached_route d cache now "0" path headers fr).fetched = false ∧
    (cached_route d cache now "0" path headers fr).cacheAfter = cache := by
  refine ⟨rfl, rfl, rfl⟩

/-- C5: when the fetch pipeline fails, the cached handler leaves the cache
map exactly as it was: nothing inserted, nothing replaced, nothing
evicted. -/
theorem cached_handler_error_leaves_cache (d : Option String) (cache : Cache)
    (now minutes : Nat) (path : String) (headers : HeaderMap) (e : Nat × String) :
    (cached_handler d cache now minutes path headers (Except.error e)).cacheAfter = cache := by
  unfold cached_handler
  simp only []
  split
  · split
    · rfl
    · rfl
  · rfl

/-- C2 counterexample: with a default credential configured and no
inbound authorization header, the uncached route still sends no
credential upstream, against the claim that it carries the default. -/
theorem handler_ignores_default_auth_cex :
    headerGet (handler_effective_headers (some "token secret") []) "authorization" ≠
      some "token secret" := by
  decide

/-- C2 amended: only the cached route substitutes the configured default
credential when the inbound request lacks an authorization header (and
sends none when no default is configured); the uncached route forwards
the inbound headers unchanged, never consulting the default. -/
theorem default_auth_substitution (d : Option String) (h : HeaderMap)
    (hno : headerContains h "authorization" = false) :
    headerGet (cached_effective_headers d h) "authorization" = d ∧
    handler_effective_headers d h = h := by
  refine ⟨?_, rfl⟩
  unfold cached_effective_headers
  rw [hno]
  simp only [Bool.false_eq_true, if_false]
  cases d with
  | none => exact headerGet_eq_none_of_not_contains h _ hno
  | some v => exact headerGet_append_single h _ v hno

theorem default_auth_substitution_witness :
    headerGet (cached_effective_headers (some "token secret") [("x-demo", "1")])
      "authorization" = some "token secret" ∧
    handler_effective_headers (some "token secret") [("x-demo", "1")] = [("x-demo", "1")] :=
  default_auth_substitution (some "token secret") [("x-demo", "1")] (by decide)

/-- C7: two cached requests share a cache entry exactly when their
post-substitution authorization header bytes and their paths are both
equal, and a request with no authorization header (and no default) keys
differently from one carrying an empty authorization value. -/
theorem cache_key_identity (d : Option String) (h1 h2 : HeaderMap) (p1 p2 p : String) :
    (cache_key_of d h1 p1 = cache_key_of d h2 p2 ↔
      headerGet (cached_effective_headers d h1) "authorization" =
        headerGet (cached_effective_headers d h2) "authorization" ∧ p1 = p2) ∧
    cache_key_of none [] p ≠ cache_key_of none [("authorization", "")] p := by
  constructor
  · simp [cache_key_of, CacheKey.mk.injEq]
  · intro hco
    have := congrArg CacheKey.authorization_header hco
    simp [cache_key_of, cached_effective_headers, headerContains, headerGet,
      List.find?_cons] at this

/-- C4: when the cache lookup yields an entry for the request key and the
entry age is within the freshness window the caller asked for, the cached
handler returns the stored values serialized by the same serializer that
produced the storing response, performs no fetch, and leaves the cache
untouched. -/
theorem cached_handler_hit (d : Option String) (cache : Cache) (now minutes : Nat)
    (path : String) (headers : HeaderMap) (fr : Except (Nat × String) (List JsonValue))
    (slot : TtlSlot)
    (hget : cacheGet cache (cache_key_of d headers path) now = some slot)
    (hfresh : now - slot.value.generated_at ≤ max_duration_secs minutes) :
    cached_handler d cache now minutes path headers fr =
      ⟨200, cors_allow_all, serialize_json_array slot.value.values, cache, false⟩ := by
  unfold cache_key_of at hget
  unfold cached_handler
  simp only []
  simp only [hget]
  rw [if_pos hfresh]
  rfl

def c4cache : Cache := [(⟨none, "repos/x"⟩, ⟨⟨[⟨"1"⟩], 0⟩, 60⟩)]

theorem cached_handler_hit_witness :
    cached_handler none c4cache 30 1 "repos/x" [] (Except.ok []) =
      ⟨200, cors_allow_all, serialize_json_array [⟨"1"⟩], c4cache, false⟩ :=
  cached_handler_hit none c4cache 30 1 "repos/x" [] (Except.ok []) ⟨⟨[⟨"1"⟩], 0⟩, 60⟩
    (by decide) (by decide)

def c3cache : Cache := [(⟨none, "repos/y"⟩, ⟨⟨[⟨"1"⟩], 0⟩, 60⟩)]

/-- C3 counterexample: an entry stored under a one-minute window (expiry
armed 60 seconds after generation) is requested again at 90 seconds with
a two-minute window; 90 is within the two-minute window the caller asked
for, yet the handler fetches upstream instead of serving the entry,
because the ttl fixed at store time has already hidden it. -/
theorem cached_window_cross_probe_cex :
    90 - 0 ≤ max_duration_secs 2 ∧
    (cached_handler none c3cache 90 2 "repos/y" [] (Except.ok [⟨"2"⟩])).fetched = true ∧
    (cached_handler none c3cache 90 2 "repos/y" [] (Except.ok [⟨"2"⟩])).body ≠
      serialize_json_array [⟨"1"⟩] := by
  refine ⟨by decide, by decide, by decide⟩

/-- C3 amended: a stored entry is served exactly when the ttl-cache
lookup still yields it, that is when now has not reached the expiry armed
at store time from the storing window, and additionally the entry age is
within the window the current caller asked for; the stored timestamp is
compared against the current window, but an entry that outlived the
window it was stored under is never served, whatever the current caller
asks. -/
theorem cached_serving_requires_ttl_and_window (d : Option String) (cache : Cache)
    (now minutes : Nat) (path : String) (headers : HeaderMap)
    (fr : Except (Nat × String) (List JsonValue)) :
    (cached_handler d cache now minutes path headers fr).fetched = false ↔
      ∃ slot, cacheGet cache (cache_key_of d headers path) now = some slot ∧
        now - slot.value.generated_at ≤ max_duration_secs minutes := by
  unfold cache_key_of
  unfold cached_handler
  simp only []
  cases hget : cacheGet cache ⟨headerGet (cached_effective_headers d headers) "authorization", path⟩ now with
  | none =>
    simp only [hget]
    constructor
    · intro hfalse
      cases fr <;> simp_all
    · rintro ⟨slot, hslot, -⟩
      exact absurd hslot (by simp)
  | some slot =>
    by_cases hfresh : now - slot.value.generated_at ≤ max_duration_secs minutes
    · simp only [hget]
      rw [if_pos hfresh]
      exact ⟨fun _ => ⟨slot, rfl, hfresh⟩, fun _ => rfl⟩
    · simp only [hget]
      rw [if_neg hfresh]
      constructor
      · intro hfalse
        cases fr <;> simp_all
      · rintro ⟨slot2, hslot2, hfresh2⟩
        cases hslot2
        exact absurd hfresh2 hfresh

/-- C1 amended: when the first hop of the pagination sequence answers
with a non-success status in the valid HTTP range, the fetch fails
immediately and the error carries that status and body verbatim. -/
theorem fetch_first_hop_error_verbatim (env : String → Option UpstreamResponse)
    (pu : String → Option (Option String))
    (pj : String → Option (List JsonValue))
    (pl : String → Option (List (Option String × String)))
    (fuel : Nat) (url : String) (hdrs : HeaderMap) (r : UpstreamResponse)
    (henv : env url = some r) (hfail : is_success_status r.status = false)
    (hlo : 100 ≤ r.status) (hhi : r.status ≤ 999) :
    fetch_from_github env pu pj pl (fuel + 1) url hdrs =
      Except.error (r.status, r.bodyText) := by
  unfold fetch_from_github
  simp only []
  simp only [henv]
  rw [if_pos (by simp [hfail])]
  unfold status_from_u16
  rw [if_pos ⟨hlo, hhi⟩]

def c1env : String → Option UpstreamResponse := fun _ =>
  some ⟨404, "message Not Found", none⟩

def puNone : String → Option (Option String) := fun _ => none

def pjNone : String → Option (List JsonValue) := fun _ => none

def plNone : String → Option (List (Option String × String)) := fun _ => none

theorem fetch_first_hop_error_verbatim_witness :
    fetch_from_github c1env puNone pjNone plNone 1 "repos/x" [] =
      Except.error (404, "message Not Found") :=
  fetch_first_hop_error_verbatim c1env puNone pjNone plNone 0 "repos/x" []
    ⟨404, "message Not Found", none⟩ rfl (by decide) (by decide) (by decide)

def cexEnv : String → Option UpstreamResponse := fun u =>
  if u = "u1" then some ⟨200, "[1]", some "L"⟩ else some ⟨404, "nf", none⟩

def cexParseJson : String → Option (List JsonValue) := fun s =>
  if s = "[1]" then some [⟨"1"⟩] else none

def cexParseLink : String → Option (List (Option String × String)) := fun l =>
  if l = "L" then some [(some "next", "u2")] else none

def puHost : String → Option (Option String) := fun _ =>
  some (some "api.github.com")

/-- C1 counterexample: page one succeeds and links to a second page whose
response is status 404 with body nf; the fetch fails, but the surfaced
error is status 500 with a wrapping diagnostic, not the 404 and the body
verbatim that the claim promises for every hop. -/
theorem fetch_followup_error_wrapped_cex :
    cexEnv "u2" = some ⟨404, "nf", none⟩ ∧
    fetch_from_github cexEnv puHost cexParseJson cexParseLink 2 "u1" [] =
      Except.error (500, "Failed to make follow-up request to github: (404, \"nf\")") ∧
    (500 : Nat) ≠ 404 := by
  refine ⟨rfl, rfl, by decide⟩

/-- C6: over any finite successful pagination chain the fetch returns
exactly the concatenation of the parsed elements of the pages in page
order, first page first, nothing dropped and nothing duplicated. -/
theorem fetch_assembles_chain (env : String → Option UpstreamResponse)
    (pu : String → Option (Option String))
    (pj : String → Option (List JsonValue))
    (pl : String → Option (List (Option String × String)))
    (url : String) (pages : List (List JsonValue))
    (hchain : PageChain env pj pl url pages) :
    ∀ fuel hdrs, pages.length ≤ fuel →
      fetch_from_github env pu pj pl fuel url hdrs = Except.ok pages.flatten := by
  induction hchain with
  | last url r a henv hok hparse hnolink =>
    intro fuel hdrs hfuel
    obtain ⟨f, rfl⟩ : ∃ f, fuel = f + 1 := ⟨fuel - 1, by simp at hfuel; omega⟩
    unfold fetch_from_github
    simp only []
    simp only [henv]
    rw [if_neg (by simp [hok])]
    simp only [hparse]
    rcases hnolink with hnone | ⟨l, lm, hl, hlm, hnext⟩
    · simp only [hnone, List.flatten]
      simp
    · simp only [hl, hlm, hnext, List.flatten]
      simp
  | cons url r a next_uri rest henv hok hparse hlink _hrest ih =>
    intro fuel hdrs hfuel
    obtain ⟨f, rfl⟩ : ∃ f, fuel = f + 1 := ⟨fuel - 1, by simp at hfuel; omega⟩
    obtain ⟨l, lm, hl, hlm, hnext⟩ := hlink
    unfold fetch_from_github
    simp only []
    simp only [henv]
    rw [if_neg (by simp [hok])]
    simp only [hparse, hl, hlm, hnext]
    rw [ih f hdrs (by simp at hfuel ⊢; omega)]
    simp [List.flatten]

def w6env : String → Option UpstreamResponse := fun u =>
  if u = "u1" then some ⟨200, "[1,2]", some "L"⟩ else some ⟨200, "[3]", none⟩

def w6pj : String → Option (List JsonValue) := fun s =>
  if s = "[1,2]" then some [⟨"1"⟩, ⟨"2"⟩] else if s = "[3]" then some [⟨"3"⟩] else none

theorem fetch_assembles_chain_witness :
    fetch_from_github w6env puHost w6pj cexParseLink 2 "u1" [] =
      Except.ok [⟨"1"⟩, ⟨"2"⟩, ⟨"3"⟩] :=
  fetch_assembles_chain w6env puHost w6pj cexParseLink "u1"
    [[⟨"1"⟩, ⟨"2"⟩], [⟨"3"⟩]]
    (PageChain.cons "u1" ⟨200, "[1,2]", some "L"⟩ [⟨"1"⟩, ⟨"2"⟩] "u2" [[⟨"3"⟩]]
      rfl rfl rfl ⟨"L", [(some "next", "u2")], rfl, rfl, rfl⟩
      (PageChain.last "u2" ⟨200, "[3]", none⟩ [⟨"3"⟩] rfl rfl rfl (Or.inl rfl)))
    2 [] (by decide)

/-- The per-header translation rule as the spec states it: a host header
becomes the host of the target URL of this hop (omitted when that host is
unavailable), an accept-encoding header is dropped, and every other
header passes through unchanged. -/
def translate_one (url : String) (parse_url_host : String → Option (Option String))
    (kv : String × String) : List (String × String) :=
  if kv.1 = "host" then
    match parse_url_host url with
    | some (some host) => [("host", host)]
    | some none => []
    | none => []
  else if kv.1 = "accept-encoding" then []
  else [kv]

theorem header_translate_aux (url : String) (pu : String → Option (Option String))
    (hdrs acc : HeaderMap) :
    hdrs.foldl (fun builder kv =>
      if kv.1 = "host" then
        match pu url with
        | some (some host) => builder ++ [(kv.1, host)]
        | some none => builder
        | none => builder
      else if kv.1 = "accept-encoding" then builder
      else builder ++ [kv]) acc = acc ++ hdrs.flatMap (translate_one url pu) := by
  induction hdrs generalizing acc with
  | nil => simp
  | cons kv t ih =>
    rw [List.foldl_cons, ih, List.flatMap_cons]
    have hstep : (if kv.1 = "host" then
        match pu url with
        | some (some host) => acc ++ [(kv.1, host)]
        | some none => acc
        | none => acc
      else if kv.1 = "accept-encoding" then acc
      else acc ++ [kv]) = acc ++ translate_one url pu kv := by
      unfold translate_one
      by_cases hh : kv.1 = "host"
      · rw [if_pos hh, if_pos hh]
        rcases pu url with _ | h
        · simp
        · rcases h with _ | host
          · simp
          · simp [hh]
      · rw [if_neg hh, if_neg hh]
        by_cases ha : kv.1 = "accept-encoding"
        · simp [ha]
        · simp [ha]
    rw [hstep, List.append_assoc]

/-- C8: at every hop the outbound header list equals the inbound list
translated header by header in order: host entries are replaced by the
host of the target URL of this hop (omitted when the URL does not parse,
or parses without a host), accept-encoding entries are dropped, and every
other entry passes through unchanged by name and value, repeats
preserved. -/
theorem header_translate_per_header (url : String)
    (pu : String → Option (Option String)) (hdrs : HeaderMap) :
    header_translate url pu hdrs = hdrs.flatMap (translate_one url pu) := by
  unfold header_translate
  rw [header_translate_aux]
  simp
